/-
Verification of the MichelaNGLo protein module against its specification.

Shallow embedding notes:
* Energies and coordinates are modelled as exact integers; the numeric
  claims under check are structural (which stored values are combined),
  not about floating-point rounding.
* A pose is the list of atoms parsed from a PDB block.  The external
  PyRosetta engine primitives (relax, mutate, dump, rmsd, per-term
  scoring) are opaque capabilities, taken as function parameters in an
  Engine record; the score function object is a ScoreFxn record.
* PDBInfo.pdb2pose is modelled as the 1-based position of the first
  residue with the requested (chain, residue number); 0 when absent,
  exactly as PyRosetta reports unmapped residues.
* The PyMOL selection "name CA and (byres chain C and resi R around X)"
  is modelled with the documented PyMOL semantics: "around" selects
  atoms within the cutoff of the source selection, excluding the source
  selection itself; "byres" completes the residues of those atoms.
* The multiprocessing supervisor in paratest is modelled as a polling
  loop over an observation stream giving, per 5-second iteration, the
  result of parent_conn.poll() and of p.is_alive(); the while-1 loop is
  embedded with explicit fuel (number of loop iterations performed).
-/
import Mathlib

namespace MP

/-- Atom of a parsed PDB block: atom name, chain id, residue number in
source (PDB) numbering, and coordinates. -/
structure Atom where
  name : String
  chain : String
  resi : Nat
  x : ℤ
  y : ℤ
  z : ℤ
deriving DecidableEq

/-- Pose, as loaded by pose_from_pdbstring: the atoms of the block. -/
abbrev Pose := List Atom

/-- Key of a residue in source numbering: (chain, residue number). -/
abbrev PdbKey := String × Nat

/-- Mutation target, as the Target namedtuple (resi, chain). -/
structure TargetRC where
  resi : Nat
  chain : String
deriving DecidableEq

/-- Residue keys of a pose in order of first appearance; internal
(pose) numbering is the 1-based position in this list, which is what
PDBInfo stores for a loaded structure. -/
def poseKeys (atoms : List Atom) : List PdbKey :=
  atoms.foldl (fun ks a => if (a.chain, a.resi) ∈ ks then ks else ks ++ [(a.chain, a.resi)]) []

/-- Position of a key in a key list (0-based), none when absent. -/
def keyIdx (k : PdbKey) : List PdbKey → Option Nat
  | [] => none
  | a :: rest => if a = k then some 0 else (keyIdx k rest).map (· + 1)

/-- PDBInfo.pdb2pose(chain=, res=): 1-based pose index of the residue,
or 0 when the (chain, number) pair resolves to no residue. -/
def pdb2pose (keys : List PdbKey) (t : TargetRC) : Nat :=
  match keyIdx (t.chain, t.resi) keys with
  | some i => i + 1
  | none => 0

/-- Python dict assignment d[k] = v: replace the value in place when the
key is present, append the pair otherwise (insertion order preserved). -/
def dictSet : List (String × ℤ) → String → ℤ → List (String × ℤ)
  | [], k, v => [(k, v)]
  | (k0, v0) :: rest, k, v =>
    if k0 = k then (k0, v) :: rest else (k0, v0) :: dictSet rest k v

/-- Row of the per-term table built by Mutator.get_all_scores. -/
structure TermRec where
  native : ℤ
  mutant : ℤ
  difference : ℤ
  weight : ℤ
  meaning : String
deriving DecidableEq

/-- Dictionary returned by Mutator.analyse_mutation. -/
structure ResultRec where
  ddG : ℤ
  scores : List (String × ℤ)
  native : String
  mutant : String
  rmsd : ℤ
  dsol : ℤ
  score_fxn : String
  ddG_residue : ℤ
  native_residue_terms : List (String × ℤ)
  mutant_residue_terms : List (String × ℤ)
  terms : List (String × TermRec)
  neighbours : List String
  cycles : Nat
  radius : Nat
deriving DecidableEq

/-- Message sent over the Pipe by the worker or synthesized by the
supervisor: either the analyse_mutation data dict or an error dict. -/
inductive JobMsg where
  | result (r : ResultRec)
  | error (s : String)
deriving DecidableEq

/-- Wait loop of paratest.  Per iteration the loop sleeps, then checks
parent_conn.poll(); when a message is pending it breaks and recv returns
the worker message; otherwise, when p.is_alive() is false it sends the
segmentation-fault error dict and breaks, so recv returns that.  obs k
gives (poll result, is_alive result) of iteration k; fuel bounds the
number of iterations the model executes (the source loop is unbounded). -/
def paratestWait (obs : Nat → Bool × Bool) (wmsg : JobMsg) : Nat → Nat → Option JobMsg
  | _, 0 => none
  | k, fuel + 1 =>
    if (obs k).1 then some wmsg
    else if !(obs k).2 then some (JobMsg.error "segmentation fault")
    else paratestWait obs wmsg (k + 1) fuel

/-- Structure record (structure.py): the fields used by includes and
get_best_model.  x and y are the span in whole-protein numbering. -/
structure Structure where
  id : String
  description : String
  x : Int
  y : Int
  offset : Int
  resolution : ℤ
  code : String
  chain : String
  type : String
deriving DecidableEq

/-- Structure.includes(position, offset=0). -/
def Structure.includes (s : Structure) (position : Int) (offset : Int := 0) : Bool :=
  if s.x + offset > position then false
  else if s.y + offset < position then false
  else true

/-- One pass of the loop body of ProteinAnalyser.get_best_model over a
group of models: keep the models whose span includes the mutation
residue index, sort ascending by resolution, return the first. -/
def pickBest (l : List Structure) (idx : Int) : Option Structure :=
  if l.isEmpty then none
  else
    let good := l.filter (fun m => m.includes idx)
    if good.isEmpty then none
    else (good.insertionSort (fun a b => a.resolution ≤ b.resolution)).head?

/-- ProteinAnalyser.get_best_model: try the pdbs group, then the
swissmodel group; None when neither yields a model with the mutation. -/
def getBestModel (pdbs swissmodel : List Structure) (idx : Int) : Option Structure :=
  (pickBest pdbs idx).orElse (fun _ => pickBest swissmodel idx)

/-- Squared-distance cutoff test between two atoms. -/
def distLe (a s : Atom) (radius : ℤ) : Bool :=
  decide ((a.x - s.x) ^ 2 + (a.y - s.y) ^ 2 + (a.z - s.z) ^ 2 ≤ radius ^ 2)

/-- PyMOL "(chain C and resi R) around X": atoms within the cutoff of
the source selection, excluding the atoms of the source selection. -/
def aroundAtoms (atoms : List Atom) (t : TargetRC) (radius : ℤ) : List Atom :=
  atoms.filter (fun a =>
    !(a.chain = t.chain && a.resi = t.resi) &&
      atoms.any (fun s => s.chain = t.chain && s.resi = t.resi && distLe a s radius))

/-- Mutator.calculate_neighbours_in_pymol: the CA atoms of the residues
completed (byres) from the around selection, read back as Target
records (resi, chain). -/
def calcNeighboursPymol (atoms : List Atom) (t : TargetRC) (radius : ℤ) : List TargetRC :=
  (atoms.filter (fun a =>
      a.name = "CA" &&
        (aroundAtoms atoms t radius).any (fun b => b.chain = a.chain && b.resi = a.resi))).map
    (fun a => { resi := a.resi, chain := a.chain })

/-- Assignment v[i] := True into a utility.vector1_bool of the given
length.  vector1 is 1-based: index 0 (the pdb2pose code for an
unresolved residue) or an index past the end is an invalid access and
raises instead of writing. -/
def vsetBool (v : List Bool) (i : Nat) : Option (List Bool) :=
  if 1 ≤ i ∧ i ≤ v.length then some (v.set (i - 1) true) else none

/-- Mutator.targets2vector: start from an all-false vector of length
total_residue and set the index every target resolves to.  The source
performs no check on the resolved index. -/
def targets2vector (keys : List PdbKey) (totalResidue : Nat) (targets : List TargetRC) :
    Option (List Bool) :=
  targets.foldlM (fun v t => vsetBool v (pdb2pose keys t)) (List.replicate totalResidue false)

/-- Mutator.calculate_neighbours_in_pyrosetta: the mask produced by
NeighborhoodResidueSelector(ResidueIndexSelector(focus), radius, True).
The third argument True is include_focus_in_subset, so the focus is in
the subset; near is the engine spatial test (radius, candidate, focus). -/
def pyrosettaNeighbours (near : Nat → Nat → Nat → Bool) (totalResidue radius focus : Nat) :
    List Bool :=
  (List.range totalResidue).map (fun i => (i + 1 == focus) || near radius (i + 1) focus)

/-- Score function object: name, per-term weight, total score of a pose,
per-term score of a pose, sub-score restricted to one residue index, and
the nonzero-weighted term list, as exposed by the PyRosetta interface. -/
structure ScoreFxn where
  name : String
  weights : String → ℤ
  run : Pose → ℤ
  runByType : String → Pose → ℤ
  subScore : Pose → Nat → ℤ
  nonzeroTerms : List String

/-- Configuration of the FastRelax mover assembled by
Mutator.ready_relax: the movemap rows set from the neighbour vector and
the Cartesian flags. -/
structure RelaxSpec where
  cycles : Nat
  bb : List Bool
  chi : List Bool
  cartesian : Bool
  minimizeBondAngles : Bool
  minimizeBondLengths : Bool
  movemapDisablesPackingOfFixedChi : Bool
deriving DecidableEq

/-- Mutator.ready_relax: FastRelax over the score function with the
given cycles; the movemap backbone and sidechain rows are both the
neighbour vector; the mover is switched to Cartesian minimization with
bond-angle and bond-length minimization exactly when the cart_bonded
weight of the score function is greater than zero.  The modern
set_movemap_disables_packing_of_fixed_chi_positions branch is taken. -/
def readyRelax (sf : ScoreFxn) (neighbourVector : List Bool) (cycles : Nat) : RelaxSpec :=
  { cycles := cycles
    bb := neighbourVector
    chi := neighbourVector
    cartesian := decide (sf.weights "cart_bonded" > 0)
    minimizeBondAngles := decide (sf.weights "cart_bonded" > 0)
    minimizeBondLengths := decide (sf.weights "cart_bonded" > 0)
    movemapDisablesPackingOfFixedChi := true }

/-- Opaque engine capabilities used by Mutator, one field per PyRosetta
or Biopython primitive the source calls. -/
structure Engine where
  relax : RelaxSpec → Pose → Pose
  mutate : Nat → String → Pose → Pose
  repackMutate : Nat → String → Pose → Pose
  mutateSimple : Nat → String → Pose → Pose
  dump : Pose → String
  rmsd : Pose → Pose → ℤ
  residueTerms : Pose → Nat → List (String × ℤ)
  near : Nat → Nat → Nat → Bool
  seq3 : String → String
  termMeaning : String → String

/-- State of a Mutator instance.  pdbKeys is the residue table of the
PDBInfo object captured at load time (self._pdb2pose), which relax and
mutate operations do not renumber; native starts as the loaded pose and
is reassigned by the clone points in the source. -/
structure MState where
  pose : Pose
  native : Pose
  scores : List (String × ℤ)
  target : TargetRC
  cycles : Nat
  radius : Nat
  pdbKeys : List PdbKey
  neighbourVector : List Bool
  relaxSpec : RelaxSpec
deriving DecidableEq

/-- Mutator.__init__: load the pose from the block (given here already
parsed to its atom list), record the raw snapshot, compute the
neighbour vector with the selected strategy, and prepare the relax
mover.  The engine-global corrections options set for beta or genpot
score function names configure the external engine and are not part of
the state.  The PyMOL strategy raises when a neighbour fails index
resolution (see targets2vector); the PyRosetta strategy raises when the
target itself resolves to no residue (ResidueIndexSelector(0)). -/
def mkMutator (eng : Engine) (sf : ScoreFxn) (pdbAtoms : List Atom)
    (targetResi : Nat) (targetChain : String) (cycles radius : Nat)
    (usePymolForNeighbours : Bool) : Option MState :=
  let pose : Pose := pdbAtoms
  let keys := poseKeys pdbAtoms
  let target : TargetRC := { resi := targetResi, chain := targetChain }
  let scores0 := dictSet [] "raw" (sf.run pose)
  let nvOpt : Option (List Bool) :=
    if usePymolForNeighbours then
      targets2vector keys keys.length (calcNeighboursPymol pdbAtoms target (radius : ℤ))
    else
      let r := pdb2pose keys target
      if r = 0 then none else some (pyrosettaNeighbours eng.near keys.length radius r)
  nvOpt.map (fun nv =>
    { pose := pose
      native := pose
      scores := scores0
      target := target
      cycles := cycles
      radius := radius
      pdbKeys := keys
      neighbourVector := nv
      relaxSpec := readyRelax sf nv cycles })

/-- Mutator.get_all_scores: per nonzero-weighted term, the native and
mutant scores by score type, their difference, the weight and the
term_meanings entry. -/
def getAllScores (eng : Engine) (sf : ScoreFxn) (native mutant : Pose) :
    List (String × TermRec) :=
  sf.nonzeroTerms.map (fun term =>
    (term,
      { native := sf.runByType term native
        mutant := sf.runByType term mutant
        difference := sf.runByType term mutant - sf.runByType term native
        weight := sf.weights term
        meaning := eng.termMeaning term }))

/-- Mutator.get_pdb_neighbours: the pose indices flagged in the
neighbour vector, rendered through pose2pdb as "resi chain". -/
def pdbNeighbours (keys : List PdbKey) (neighbourVector : List Bool) : List String :=
  ((List.range neighbourVector.length).filter
      (fun i => neighbourVector.getD i false)).map
    (fun i =>
      match keys.get? i with
      | some (c, ri) => toString ri ++ " " ++ c
      | none => "")

/-- Mutator.analyse_mutation: relax, mark relaxed, retain the native
clone and its block, mutate the target (ValueError when the target
resolves to pose index 0, modelled as none), mark mutate, relax again,
mark mutarelax, then assemble the result dict; ddG reads the mutarelax
and relaxed entries back out of the scores dict. -/
def analyseMutation (eng : Engine) (sf : ScoreFxn) (st : MState) (altResn : String) :
    Option (ResultRec × MState) :=
  let p1 := eng.relax st.relaxSpec st.pose
  let s1 := dictSet st.scores "relaxed" (sf.run p1)
  let native := p1
  let nblock := eng.dump p1
  let r := pdb2pose st.pdbKeys st.target
  if r = 0 then none
  else
    let p2 := eng.mutate r altResn p1
    let s2 := dictSet s1 "mutate" (sf.run p2)
    let p3 := eng.relax st.relaxSpec p2
    let s3 := dictSet s2 "mutarelax" (sf.run p3)
    some
      ({ ddG := (List.lookup "mutarelax" s3).getD 0 - (List.lookup "relaxed" s3).getD 0
         scores := s3
         native := nblock
         mutant := eng.dump p3
         rmsd := eng.rmsd native p3
         dsol := sf.runByType "fa_sol" p3 - sf.runByType "fa_sol" native
         score_fxn := sf.name
         ddG_residue := sf.subScore p3 r - sf.subScore native r
         native_residue_terms := eng.residueTerms native r
         mutant_residue_terms := eng.residueTerms p3 r
         terms := getAllScores eng sf native p3
         neighbours := pdbNeighbours st.pdbKeys st.neighbourVector
         cycles := st.cycles
         radius := st.radius },
       { st with pose := p3, native := native, scores := s3 })

/-- Requested post-translational modification record: the ptm kind tag,
the source amino acid and the residue index. -/
structure PTMRecord where
  ptm : String
  fromResidue : String
  residueIndex : Nat
deriving DecidableEq

/-- Python str.upper() on the characters of a string. -/
def strUpper (s : String) : String :=
  String.mk (s.data.map Char.toUpper)

/-- Per-record patch decision of Mutator.make_phospho: ub has no proxy
and is skipped; p and ac always map; m1, m2 and m3 map only when the
source amino acid is LYS; every other kind falls through to continue. -/
def ptmPatch (record : PTMRecord) : Option String :=
  if record.ptm = "ub" then none
  else if record.ptm = "p" then some "phosphorylated"
  else if record.ptm = "ac" then some "acetylated"
  else if record.ptm = "m1" ∧ strUpper record.fromResidue = "LYS" then some "monomethylated"
  else if record.ptm = "m2" ∧ strUpper record.fromResidue = "LYS" then some "dimethylated"
  else if record.ptm = "m3" ∧ strUpper record.fromResidue = "LYS" then some "trimethylated"
  else none

/-- Mutator.make_phospho: clone the pose, walk the requested records,
skip the ones without a patch and the ones whose residue index resolves
to 0, apply MutateResidue for the rest, and return the block of the
clone.  The changes counter is initialised to 0 and never incremented
or read in the source; it is carried here to record that fact. -/
def makePhospho (eng : Engine) (keys : List PdbKey) (pose : Pose)
    (ptms : List PTMRecord) : String × Nat :=
  let final := ptms.foldl
    (fun (acc : Pose × Nat) record =>
      match ptmPatch record with
      | none => acc
      | some patch =>
        let newRes := strUpper (eng.seq3 record.fromResidue) ++ ":" ++ patch
        let r := pdb2pose keys { resi := record.residueIndex, chain := "A" }
        if r = 0 then acc else (eng.mutateSimple r newRes acc.1, acc.2))
    (pose, 0)
  (eng.dump final.1, final.2)

/-- gnomAD variant record: consequence type, protein position x and the
description string such as R19Q. -/
structure Variant where
  type : String
  x : Nat
  description : String
deriving DecidableEq

/-- Word character of the re module: letter, digit or underscore. -/
def isWordChar (c : Char) : Bool :=
  c.isAlpha || c.isDigit || c = '_'

/-- Python re.match of (\w)(\d+)([\w]) against a description: anchored
at the start, greedy digit run with one step of backtracking when no
word character follows it.  Returns (group 0, group 1, group 3), the
parts score_gnomads uses. -/
def parseDesc (s : String) : Option (String × String × String) :=
  match s.data with
  | [] => none
  | c :: rest =>
    if isWordChar c then
      let ds := rest.takeWhile Char.isDigit
      if ds.isEmpty then none
      else
        match rest.drop ds.length with
        | t :: _ =>
          if isWordChar t then
            some (String.mk (c :: ds ++ [t]), String.mk [c], String.mk [t])
          else if 2 ≤ ds.length then
            some (String.mk (c :: ds), String.mk [c], String.mk [ds.getLastD 'x'])
          else none
        | [] =>
          if 2 ≤ ds.length then
            some (String.mk (c :: ds), String.mk [c], String.mk [ds.getLastD 'x'])
          else none
    else none

/-- Mutator._repack_gnomad: overwrite the working pose with a fresh
clone of the native reference, locally repack-mutate it to the source
residue, score, repack-mutate to the destination residue, and return
the score difference together with the final working pose. -/
def repackGnomad (eng : Engine) (sf : ScoreFxn) (native : Pose) (poseIdx : Nat)
    (fromResi toResi : String) : ℤ × Pose :=
  let p1 := eng.repackMutate poseIdx fromResi native
  let ref := sf.run p1
  let p2 := eng.repackMutate poseIdx toResi p1
  (sf.run p2 - ref, p2)

/-- Mutator.score_gnomads: retain the current pose as the native
reference, mark wt, then per variant skip nonsense records, records at
unmapped positions, descriptions the regex rejects and duplicate keys,
and otherwise store the _repack_gnomad difference under group 0 of the
match. -/
def scoreGnomads (eng : Engine) (sf : ScoreFxn) (st : MState)
    (gnomads : List Variant) : List (String × ℤ) × MState :=
  let native := st.pose
  let scores1 := dictSet st.scores "wt" (sf.run st.pose)
  let final := gnomads.foldl
    (fun (acc : List (String × ℤ) × Pose) record =>
      if record.type = "nonsense" then acc
      else
        let n := pdb2pose st.pdbKeys { resi := record.x, chain := "A" }
        if n = 0 then acc
        else
          match parseDesc record.description with
          | none => acc
          | some (g0, g1, g3) =>
            if acc.1.any (fun p => p.1 = g0) then acc
            else
              let vp := repackGnomad eng sf native n g1 g3
              (acc.1 ++ [(g0, vp.1)], vp.2))
    ([], st.pose)
  (final.1, { st with native := native, pose := final.2, scores := scores1 })

/-- Reference map for the batch-independence claim: the same filtered,
deduplicated walk over the variants, but with every entry computed
directly from the shared native reference, with no working pose passed
from one candidate to the next. -/
def scoreGnomadsIndependent (eng : Engine) (sf : ScoreFxn) (native : Pose)
    (keys : List PdbKey) (gnomads : List Variant) : List (String × ℤ) :=
  gnomads.foldl
    (fun (acc : List (String × ℤ)) record =>
      if record.type = "nonsense" then acc
      else
        let n := pdb2pose keys { resi := record.x, chain := "A" }
        if n = 0 then acc
        else
          match parseDesc record.description with
          | none => acc
          | some (g0, g1, g3) =>
            if acc.any (fun p => p.1 = g0) then acc
            else acc ++ [(g0, (repackGnomad eng sf native n g1 g3).1)])
    []

/-- Concrete engine for witnesses: MutateResidue appends a marker atom
recording the applied patch, dump lists the atom names, and the other
primitives are inert. -/
def sampleEng : Engine :=
  { relax := fun _ p => p
    mutate := fun _ _ p => p
    repackMutate := fun _ _ p => p
    mutateSimple := fun r newRes p =>
      p ++ [{ name := newRes, chain := "MUT", resi := r, x := 0, y := 0, z := 0 }]
    dump := fun p => String.intercalate "," (p.map Atom.name)
    rmsd := fun _ _ => 0
    residueTerms := fun _ _ => []
    near := fun _ _ _ => true
    seq3 := fun s => s
    termMeaning := fun _ => "" }

/-- Concrete score function for witnesses: every weight and score is 0. -/
def sampleSf : ScoreFxn :=
  { name := "ref2015"
    weights := fun _ => 0
    run := fun _ => 0
    runByType := fun _ _ => 0
    subScore := fun _ _ => 0
    nonzeroTerms := [] }

/-- Score function whose cart_bonded weight is negative (nonzero). -/
def sfNeg : ScoreFxn :=
  { name := "cart_test"
    weights := fun term => if term = "cart_bonded" then -1 else 0
    run := fun _ => 0
    runByType := fun _ _ => 0
    subScore := fun _ _ => 0
    nonzeroTerms := ["cart_bonded"] }

/-- One-residue structure: a single CA atom, chain A residue 1. -/
def atoms1 : List Atom :=
  [{ name := "CA", chain := "A", resi := 1, x := 0, y := 0, z := 0 }]

/-- Two-residue structure: chain A residues 1 and 2, CA atoms one
angstrom apart, so each is a spatial neighbour of the other at any
radius of at least 1. -/
def atoms2 : List Atom :=
  [{ name := "CA", chain := "A", resi := 1, x := 0, y := 0, z := 0 },
   { name := "CA", chain := "A", resi := 2, x := 1, y := 0, z := 0 }]

/-- Mutator state produced by mkMutator on atoms1 with the PyRosetta
neighbour strategy, target chain A residue 1, one cycle, radius 3. -/
def wSt : MState :=
  { pose := atoms1
    native := atoms1
    scores := [("raw", 0)]
    target := { resi := 1, chain := "A" }
    cycles := 1
    radius := 3
    pdbKeys := [("A", 1)]
    neighbourVector := [true]
    relaxSpec :=
      { cycles := 1, bb := [true], chi := [true], cartesian := false,
        minimizeBondAngles := false, minimizeBondLengths := false,
        movemapDisablesPackingOfFixedChi := true } }

/-- Placeholder result record used as the getD default below. -/
def dummyRes : ResultRec :=
  { ddG := 0, scores := [], native := "", mutant := "", rmsd := 0, dsol := 0,
    score_fxn := "", ddG_residue := 0, native_residue_terms := [],
    mutant_residue_terms := [], terms := [], neighbours := [], cycles := 0, radius := 0 }

/-- Result of running analyse_mutation on the sample state. -/
def wPair : ResultRec × MState :=
  (analyseMutation sampleEng sampleSf wSt "W").getD (dummyRes, wSt)

/-- PTM record of an unsupported kind (ubiquitination). -/
def ubRec : PTMRecord := { ptm := "ub", fromResidue := "LYS", residueIndex := 1 }

/-- PTM record of a kind with no patch (O-galactosylation). -/
def gaRec : PTMRecord := { ptm := "ga", fromResidue := "SER", residueIndex := 1 }

/-- Methylation record on a non-lysine source amino acid. -/
def m1ArgRec : PTMRecord := { ptm := "m1", fromResidue := "ARG", residueIndex := 1 }

/-- Supported phosphorylation record on a serine. -/
def pSerRec : PTMRecord := { ptm := "p", fromResidue := "Ser", residueIndex := 1 }

/-- Observation stream of a worker that stays alive and never sends. -/
def silentObs : Nat → Bool × Bool := fun _ => (false, true)

/-- Observation stream of a worker that dies silently at iteration 2. -/
def deadObs : Nat → Bool × Bool := fun k => (false, decide (k < 2))

/-- Concrete model record: span 1..10 in protein numbering. -/
def s0 : Structure :=
  { id := "1SFT", description := "alanine racemase", x := 1, y := 10, offset := 0,
    resolution := 2, code := "1SFT", chain := "A", type := "rcsb" }

/-! ## Supervisor wait loop -/

/-- Helper: exit of the wait loop at the first observation whose poll
is false and whose liveness is false, counted from any start index. -/
theorem paratestWait_crash_aux (obs : Nat → Bool × Bool) (w : JobMsg) :
    ∀ (k start fuel : Nat), k < fuel →
      (∀ j, j < k → obs (start + j) = (false, true)) →
      (obs (start + k)).1 = false → (obs (start + k)).2 = false →
      paratestWait obs w start fuel = some (JobMsg.error "segmentation fault") := by
  intro k
  induction k with
  | zero =>
    intro start fuel hfuel _ hpoll hdead
    match fuel, hfuel with
    | fuel + 1, _ =>
      simp only [Nat.add_zero] at hpoll hdead
      simp [paratestWait, hpoll, hdead]
  | succ k ih =>
    intro start fuel hfuel hquiet hpoll hdead
    match fuel, hfuel with
    | fuel + 1, hfuel =>
      have h0 : obs start = (false, true) := by
        have := hquiet 0 (Nat.succ_pos k)
        simpa using this
      have hstep : paratestWait obs w start (fuel + 1) = paratestWait obs w (start + 1) fuel := by
        simp [paratestWait, h0]
      rw [hstep]
      refine ih (start + 1) fuel (Nat.lt_of_succ_lt_succ hfuel) ?_ ?_ ?_
      · intro j hj
        have := hquiet (j + 1) (Nat.succ_lt_succ hj)
        simpa [Nat.add_assoc, Nat.add_comm 1 j] using this
      · have := hpoll
        simpa [Nat.add_assoc, Nat.add_comm 1 k] using this
      · have := hdead
        simpa [Nat.add_assoc, Nat.add_comm 1 k] using this

/-- C2: when the execution context terminates before any message
arrives — the poll result has stayed false while the worker was alive,
and at some iteration within the loop budget the worker is found dead
with still no pending message — the wait loop of paratest exits and the
caller receives the synthesized crash-failure dict (the error record
with the segmentation-fault text, the WorkerCrashed kind of the spec)
rather than hanging or propagating an exception. -/
theorem paratestWait_worker_crash_failure (obs : Nat → Bool × Bool) (w : JobMsg)
    (k fuel : Nat) (hquiet : ∀ j, j < k → obs j = (false, true))
    (hpoll : (obs k).1 = false) (hdead : (obs k).2 = false) (hfuel : k < fuel) :
    paratestWait obs w 0 fuel = some (JobMsg.error "segmentation fault") := by
  have := paratestWait_crash_aux obs w k 0 fuel hfuel
  simp only [Nat.zero_add] at this
  exact this hquiet hpoll hdead

/-- Witness for C2: a worker that is silent and dies at iteration 2 is
reported as a segmentation-fault failure within a 10-iteration budget. -/
theorem paratestWait_worker_crash_failure_witness :
    paratestWait deadObs (JobMsg.error "x") 0 10 =
      some (JobMsg.error "segmentation fault") :=
  paratestWait_worker_crash_failure deadObs (JobMsg.error "x") 2 10
    (by decide) (by decide) (by decide) (by decide)

/-- Counterexample for C1: a worker that stays alive and never sends a
message is still being polled after 100 iterations (500 seconds of
wall-clock at the 5-second polling interval); the loop has no timeout
arm and never synthesizes a Timeout failure. -/
theorem paratestWait_silent_counterexample :
    paratestWait silentObs (JobMsg.error "x") 0 100 = none := by
  decide

/-- C1 amended: the wait loop of paratest exits only when a message is
pending or the worker is dead.  A silent live worker is polled forever
(for every loop budget the loop is still running), and every message the
loop can ever deliver is either the worker message or the synthesized
segmentation-fault failure — no Timeout failure exists. -/
theorem paratestWait_exits_only_on_message_or_death :
    (∀ (w : JobMsg) (k fuel : Nat), paratestWait silentObs w k fuel = none)
    ∧ ∀ (obs : Nat → Bool × Bool) (w : JobMsg) (k fuel : Nat),
        paratestWait obs w k fuel = none ∨ paratestWait obs w k fuel = some w
          ∨ paratestWait obs w k fuel = some (JobMsg.error "segmentation fault") := by
  constructor
  · intro w k fuel
    induction fuel generalizing k with
    | zero => rfl
    | succ fuel ih => simpa [paratestWait, silentObs] using ih (k + 1)
  · intro obs w k fuel
    induction fuel generalizing k with
    | zero => exact Or.inl rfl
    | succ fuel ih =>
      by_cases hp : (obs k).1
      · exact Or.inr (Or.inl (by simp [paratestWait, hp]))
      · by_cases ha : (obs k).2
        · simpa [paratestWait, hp, ha] using ih (k + 1)
        · exact Or.inr (Or.inr (by simp [paratestWait, hp, ha]))

/-! ## Relax preparation -/

/-- Counterexample for C8: a score function assigning the nonzero
weight -1 to cart_bonded does not switch the relax to Cartesian mode,
because ready_relax tests for a weight greater than zero. -/
theorem readyRelax_negative_weight_counterexample :
    sfNeg.weights "cart_bonded" ≠ 0 ∧ (readyRelax sfNeg [] 1).cartesian = false := by
  constructor
  · intro h
    simp [sfNeg] at h
  · rfl

/-- C8 amended: the relax mover is switched to Cartesian mode, with
bond-angle and bond-length minimization, exactly when the configured
score function assigns a positive weight to the cart_bonded term; the
switch is independent of the caller arguments (cycles and the
neighbour vector). -/
theorem readyRelax_cartesian_iff_positive_weight (sf : ScoreFxn)
    (nv nv2 : List Bool) (cycles cycles2 : Nat) :
    ((readyRelax sf nv cycles).cartesian = true ↔ 0 < sf.weights "cart_bonded")
    ∧ ((readyRelax sf nv cycles).minimizeBondAngles = true ↔ 0 < sf.weights "cart_bonded")
    ∧ ((readyRelax sf nv cycles).minimizeBondLengths = true ↔ 0 < sf.weights "cart_bonded")
    ∧ (readyRelax sf nv cycles).cartesian = (readyRelax sf nv2 cycles2).cartesian := by
  refine ⟨?_, ?_, ?_, ?_⟩ <;> simp [readyRelax]

/-! ## Score dictionary -/

/-- Reading a key back directly after a dict assignment. -/
theorem lookup_dictSet_self (d : List (String × ℤ)) (k : String) (v : ℤ) :
    List.lookup k (dictSet d k v) = some v := by
  induction d with
  | nil => simp [dictSet]
  | cons p rest ih =>
    obtain ⟨k0, v0⟩ := p
    by_cases h : k0 = k
    · subst h
      simp [dictSet]
    · have hb : (k == k0) = false := beq_eq_false_iff_ne.mpr (Ne.symm h)
      simp [dictSet, h, List.lookup, hb, ih]

/-- Dict assignment leaves the other keys unchanged. -/
theorem lookup_dictSet_ne (d : List (String × ℤ)) (k k' : String) (v : ℤ)
    (h : k' ≠ k) : List.lookup k' (dictSet d k v) = List.lookup k' d := by
  induction d with
  | nil =>
    have hb : (k' == k) = false := beq_eq_false_iff_ne.mpr h
    simp [dictSet, List.lookup, hb]
  | cons p rest ih =>
    obtain ⟨k0, v0⟩ := p
    by_cases h0 : k0 = k
    · subst h0
      have hb : (k' == k0) = false := beq_eq_false_iff_ne.mpr h
      simp [dictSet, List.lookup, hb]
    · cases hb : (k' == k0) <;> simp [dictSet, h0, List.lookup, hb, ih]

/-- C3: a successful analyse_mutation stores the baseline-relaxed total
under relaxed and the mutant-relaxed total under mutarelax, and the
returned ddG is exactly the difference of those two stored totals. -/
theorem analyseMutation_ddG_eq_mutarelax_sub_relaxed (eng : Engine) (sf : ScoreFxn)
    (st : MState) (alt : String) (res : ResultRec) (st2 : MState)
    (h : analyseMutation eng sf st alt = some (res, st2)) :
    List.lookup "mutarelax" res.scores =
      some (sf.run (eng.relax st.relaxSpec
        (eng.mutate (pdb2pose st.pdbKeys st.target) alt (eng.relax st.relaxSpec st.pose))))
    ∧ List.lookup "relaxed" res.scores = some (sf.run (eng.relax st.relaxSpec st.pose))
    ∧ res.ddG =
        sf.run (eng.relax st.relaxSpec
          (eng.mutate (pdb2pose st.pdbKeys st.target) alt (eng.relax st.relaxSpec st.pose)))
        - sf.run (eng.relax st.relaxSpec st.pose) := by
  unfold analyseMutation at h
  by_cases hr : pdb2pose st.pdbKeys st.target = 0
  · simp [hr] at h
  · simp only [hr, if_false, Option.some.injEq, Prod.mk.injEq] at h
    obtain ⟨hres, _⟩ := h
    subst hres
    have h3 := lookup_dictSet_self
      (dictSet (dictSet st.scores "relaxed" (sf.run (eng.relax st.relaxSpec st.pose)))
        "mutate" (sf.run (eng.mutate (pdb2pose st.pdbKeys st.target) alt
          (eng.relax st.relaxSpec st.pose))))
      "mutarelax"
      (sf.run (eng.relax st.relaxSpec (eng.mutate (pdb2pose st.pdbKeys st.target) alt
        (eng.relax st.relaxSpec st.pose))))
    have h1 : List.lookup "relaxed"
        (dictSet (dictSet (dictSet st.scores "relaxed"
            (sf.run (eng.relax st.relaxSpec st.pose)))
          "mutate" (sf.run (eng.mutate (pdb2pose st.pdbKeys st.target) alt
            (eng.relax st.relaxSpec st.pose))))
          "mutarelax"
          (sf.run (eng.relax st.relaxSpec (eng.mutate (pdb2pose st.pdbKeys st.target) alt
            (eng.relax st.relaxSpec st.pose))))) =
        some (sf.run (eng.relax st.relaxSpec st.pose)) := by
      rw [lookup_dictSet_ne _ _ _ _ (by decide), lookup_dictSet_ne _ _ _ _ (by decide),
        lookup_dictSet_self]
    refine ⟨h3, h1, ?_⟩
    simp only [h3, h1, Option.getD_some]

/-- Witness for C3 on the sample engine, score function and state. -/
theorem analyseMutation_ddG_eq_mutarelax_sub_relaxed_witness :
    List.lookup "mutarelax" wPair.1.scores =
      some (sampleSf.run (sampleEng.relax wSt.relaxSpec
        (sampleEng.mutate (pdb2pose wSt.pdbKeys wSt.target) "W"
          (sampleEng.relax wSt.relaxSpec wSt.pose))))
    ∧ List.lookup "relaxed" wPair.1.scores =
        some (sampleSf.run (sampleEng.relax wSt.relaxSpec wSt.pose))
    ∧ wPair.1.ddG =
        sampleSf.run (sampleEng.relax wSt.relaxSpec
          (sampleEng.mutate (pdb2pose wSt.pdbKeys wSt.target) "W"
            (sampleEng.relax wSt.relaxSpec wSt.pose)))
        - sampleSf.run (sampleEng.relax wSt.relaxSpec wSt.pose) :=
  analyseMutation_ddG_eq_mutarelax_sub_relaxed sampleEng sampleSf wSt "W"
    wPair.1 wPair.2 (by decide)

/-- C9: across one precise job (init followed by analyse_mutation) the
snapshot labels are raw, relaxed, mutate, mutarelax in that order, the
keys are pairwise distinct, and each label still holds the total that
was recorded when it was marked — no later operation overwrites it. -/
theorem preciseJob_snapshot_labels_unique_never_overwritten (eng : Engine)
    (sf : ScoreFxn) (pdbAtoms : List Atom) (targetResi : Nat) (targetChain : String)
    (cycles radius : Nat) (usePymol : Bool) (alt : String)
    (st : MState) (res : ResultRec) (st2 : MState)
    (hinit : mkMutator eng sf pdbAtoms targetResi targetChain cycles radius usePymol
      = some st)
    (hrun : analyseMutation eng sf st alt = some (res, st2)) :
    res.scores =
      [("raw", sf.run pdbAtoms),
       ("relaxed", sf.run (eng.relax st.relaxSpec pdbAtoms)),
       ("mutate", sf.run (eng.mutate (pdb2pose st.pdbKeys st.target) alt
          (eng.relax st.relaxSpec pdbAtoms))),
       ("mutarelax", sf.run (eng.relax st.relaxSpec (eng.mutate
          (pdb2pose st.pdbKeys st.target) alt (eng.relax st.relaxSpec pdbAtoms))))]
    ∧ (res.scores.map Prod.fst).Nodup := by
  unfold mkMutator at hinit
  rw [Option.map_eq_some'] at hinit
  obtain ⟨nv, hnv, hst⟩ := hinit
  subst hst
  unfold analyseMutation at hrun
  by_cases hr : pdb2pose (poseKeys pdbAtoms) { resi := targetResi, chain := targetChain } = 0
  · simp [hr] at hrun
  · simp only [hr, if_false, Option.some.injEq, Prod.mk.injEq] at hrun
    obtain ⟨hres, _⟩ := hrun
    subst hres
    refine ⟨?_, ?_⟩
    · simp [dictSet]
    · simp [dictSet]

/-- Witness for C9 on the sample engine, score function and state. -/
theorem preciseJob_snapshot_labels_unique_never_overwritten_witness :
    wPair.1.scores =
      [("raw", sampleSf.run atoms1),
       ("relaxed", sampleSf.run (sampleEng.relax wSt.relaxSpec atoms1)),
       ("mutate", sampleSf.run (sampleEng.mutate (pdb2pose wSt.pdbKeys wSt.target) "W"
          (sampleEng.relax wSt.relaxSpec atoms1))),
       ("mutarelax", sampleSf.run (sampleEng.relax wSt.relaxSpec (sampleEng.mutate
          (pdb2pose wSt.pdbKeys wSt.target) "W" (sampleEng.relax wSt.relaxSpec atoms1))))]
    ∧ (wPair.1.scores.map Prod.fst).Nodup :=
  preciseJob_snapshot_labels_unique_never_overwritten sampleEng sampleSf atoms1
    1 "A" 1 3 false "W" wSt wPair.1 wPair.2 (by decide) (by decide)

/-! ## Structure spans and model choice -/

/-- Heads of lists are members. -/
theorem headq_mem {α : Type} (l : List α) (a : α) (h : l.head? = some a) : a ∈ l := by
  cases l <;> simp_all

/-- A model returned by one group pass of get_best_model includes the
mutation position. -/
theorem pickBest_includes (l : List Structure) (idx : Int) (m : Structure)
    (h : pickBest l idx = some m) : m.includes idx = true := by
  unfold pickBest at h
  by_cases h1 : l.isEmpty
  · simp [h1] at h
  · simp only [h1, if_false] at h
    by_cases h2 : (l.filter (fun m => m.includes idx)).isEmpty
    · simp [h2] at h
    · simp only [h2, if_false] at h
      have hm : m ∈ (l.filter (fun m => m.includes idx)).insertionSort
          (fun a b => a.resolution ≤ b.resolution) := headq_mem _ _ h
      have hm2 : m ∈ l.filter (fun m => m.includes idx) :=
        (List.perm_insertionSort _ _).subset hm
      exact (List.mem_filter.mp hm2).2

/-- C10: Structure.includes is the inclusive span test
x + offset ≤ position ≤ y + offset, and any model returned by
get_best_model has the mutation residue index inside its span,
boundaries included. -/
theorem includes_iff_and_getBestModel_in_span (s : Structure) (p o : Int)
    (pdbs sm : List Structure) (idx : Int) (m : Structure)
    (h : getBestModel pdbs sm idx = some m) :
    (s.includes p o = true ↔ s.x + o ≤ p ∧ p ≤ s.y + o) ∧ m.x ≤ idx ∧ idx ≤ m.y := by
  constructor
  · unfold Structure.includes
    split_ifs with h1 h2
    · simp
      omega
    · simp
      omega
    · simp
      omega
  · have hinc : m.includes idx = true := by
      unfold getBestModel at h
      cases hp : pickBest pdbs idx with
      | none =>
        rw [hp] at h
        exact pickBest_includes sm idx m (by simpa [Option.orElse] using h)
      | some x =>
        rw [hp] at h
        simp only [Option.orElse] at h
        have hx : x = m := by simpa using h
        exact hx ▸ pickBest_includes pdbs idx x hp
    unfold Structure.includes at hinc
    split_ifs at hinc
    omega

/-- Witness for C10 at the concrete model list. -/
theorem includes_iff_and_getBestModel_in_span_witness :
    (s0.includes 5 0 = true ↔ s0.x + 0 ≤ 5 ∧ 5 ≤ s0.y + 0) ∧ s0.x ≤ 5 ∧ 5 ≤ s0.y :=
  includes_iff_and_getBestModel_in_span s0 5 0 [s0] [] 5 s0 (by decide)

/-! ## Post-translational modifications -/

/-- C5 evaluated at the failing input: a request list in which every
modification is skipped (unsupported ubiquitination and
O-galactosylation kinds, and a methylation on a non-lysine source
amino acid) still returns the block of the unmodified clone with the
changes counter at 0 — make_phospho has no failure path and never
raises NoApplicableSubstitution; and the mixed request applies exactly
the one supported phosphorylation. -/
theorem makePhospho_all_skipped_returns_block :
    makePhospho sampleEng (poseKeys atoms1) atoms1 [ubRec, gaRec, m1ArgRec]
      = (sampleEng.dump atoms1, 0)
    ∧ makePhospho sampleEng (poseKeys atoms1) atoms1 [ubRec, pSerRec]
      = (sampleEng.dump (sampleEng.mutateSimple 1 "SER:phosphorylated" atoms1), 0) := by
  constructor
  · decide
  · decide

/-! ## Batch gnomAD scoring -/

/-- Helper for C7: the working pose threaded through the score_gnomads
loop never feeds into any recorded value, because each iteration starts
from a fresh clone of the shared native reference; so the recorded map
equals the map computed with no pose threading at all. -/
theorem gnomadFold_aux (eng : Engine) (sf : ScoreFxn) (keys : List PdbKey)
    (native : Pose) :
    ∀ (gs : List Variant) (acc : List (String × ℤ)) (p : Pose),
      (gs.foldl
        (fun (acc : List (String × ℤ) × Pose) record =>
          if record.type = "nonsense" then acc
          else
            let n := pdb2pose keys { resi := record.x, chain := "A" }
            if n = 0 then acc
            else
              match parseDesc record.description with
              | none => acc
              | some (g0, g1, g3) =>
                if acc.1.any (fun q => q.1 = g0) then acc
                else
                  let vp := repackGnomad eng sf native n g1 g3
                  (acc.1 ++ [(g0, vp.1)], vp.2))
        (acc, p)).1
      = gs.foldl
        (fun (acc : List (String × ℤ)) record =>
          if record.type = "nonsense" then acc
          else
            let n := pdb2pose keys { resi := record.x, chain := "A" }
            if n = 0 then acc
            else
              match parseDesc record.description with
              | none => acc
              | some (g0, g1, g3) =>
                if acc.any (fun q => q.1 = g0) then acc
                else acc ++ [(g0, (repackGnomad eng sf native n g1 g3).1)])
        acc := by
  intro gs
  induction gs with
  | nil => intro acc p; rfl
  | cons a rest ih =>
    intro acc p
    simp only [List.foldl_cons]
    by_cases h1 : a.type = "nonsense"
    · simp only [h1, if_true]
      exact ih acc p
    · simp only [h1, if_false]
      by_cases h2 : pdb2pose keys { resi := a.x, chain := "A" } = 0
      · simp only [h2, if_true]
        exact ih acc p
      · simp only [h2, if_false]
        cases hp : parseDesc a.description with
        | none => exact ih acc p
        | some g =>
          obtain ⟨g0, g1, g3⟩ := g
          by_cases h3 : acc.any (fun q => q.1 = g0)
          · simp only [h3, if_true]
            exact ih acc p
          · simp only [h3, if_false]
            exact ih _ _

/-- C7: batch scoring of gnomAD substitutions records, for every
accepted candidate, exactly the value computed from a fresh clone of
the shared native reference and that candidate alone — the working copy
left behind by one candidate never leaks into the next recorded score —
and the native reference held in the final state is the pose captured
when the batch started. -/
theorem scoreGnomads_independent_clones (eng : Engine) (sf : ScoreFxn) (st : MState)
    (gnomads : List Variant) :
    (scoreGnomads eng sf st gnomads).1
      = scoreGnomadsIndependent eng sf st.pose st.pdbKeys gnomads
    ∧ (scoreGnomads eng sf st gnomads).2.native = st.pose := by
  constructor
  · simp only [scoreGnomads, scoreGnomadsIndependent]
    exact gnomadFold_aux eng sf st.pdbKeys st.pose gnomads [] st.pose
  · rfl

/-! ## Index resolution -/

/-- A key found by keyIdx really sits at that position. -/
theorem keyIdx_get (k : PdbKey) :
    ∀ (l : List PdbKey) (i : Nat), keyIdx k l = some i → l.get? i = some k := by
  intro l
  induction l with
  | nil => intro i h; simp [keyIdx] at h
  | cons a rest ih =>
    intro i h
    by_cases ha : a = k
    · subst ha
      simp [keyIdx] at h
      subst h
      rfl
    · simp only [keyIdx, ha, if_false, Option.map_eq_some'] at h
      obtain ⟨j, hj, hji⟩ := h
      subst hji
      simpa using ih j hj

/-- Positions returned by keyIdx are in range. -/
theorem keyIdx_lt (k : PdbKey) (l : List PdbKey) (i : Nat)
    (h : keyIdx k l = some i) : i < l.length := by
  have hg := keyIdx_get k l i h
  by_contra hlt
  push_neg at hlt
  rw [List.get?_eq_none.mpr hlt] at hg
  exact Option.noConfusion hg

/-- pdb2pose returns i + 1 exactly when the key sits at position i. -/
theorem pdb2pose_eq_succ_iff (keys : List PdbKey) (t : TargetRC) (i : Nat) :
    pdb2pose keys t = i + 1 ↔ keyIdx (t.chain, t.resi) keys = some i := by
  unfold pdb2pose
  cases h : keyIdx (t.chain, t.resi) keys with
  | none => simp
  | some j => simp

/-- pdb2pose never exceeds the number of residues. -/
theorem pdb2pose_le (keys : List PdbKey) (t : TargetRC) :
    pdb2pose keys t ≤ keys.length := by
  unfold pdb2pose
  cases h : keyIdx (t.chain, t.resi) keys with
  | none => simp
  | some i => exact keyIdx_lt _ _ _ h

/-- Two targets resolving to the same nonzero pose index carry the same
(chain, residue number) key. -/
theorem pdb2pose_inj (keys : List PdbKey) (t1 t2 : TargetRC)
    (h : pdb2pose keys t1 = pdb2pose keys t2) (h0 : pdb2pose keys t1 ≠ 0) :
    (t1.chain, t1.resi) = (t2.chain, t2.resi) := by
  obtain ⟨i, hi⟩ : ∃ i, pdb2pose keys t1 = i + 1 := ⟨pdb2pose keys t1 - 1, by omega⟩
  have h1 := (pdb2pose_eq_succ_iff keys t1 i).mp hi
  have h2 := (pdb2pose_eq_succ_iff keys t2 i).mp (by omega)
  have g1 := keyIdx_get _ _ _ h1
  have g2 := keyIdx_get _ _ _ h2
  rw [g1] at g2
  exact Option.some.inj g2

/-! ## Neighbourhood strategies -/

/-- The around selection excludes the source selection, so no residue
produced by the PyMOL neighbour strategy carries the key of the target
residue itself. -/
theorem calcNeighboursPymol_ne_target (atoms : List Atom) (t : TargetRC) (rad : ℤ) :
    ∀ nb ∈ calcNeighboursPymol atoms t rad,
      ¬(nb.chain = t.chain ∧ nb.resi = t.resi) := by
  intro nb hnb
  unfold calcNeighboursPymol at hnb
  rw [List.mem_map] at hnb
  obtain ⟨a, ha, hEq⟩ := hnb
  rw [List.mem_filter] at ha
  obtain ⟨-, hpred⟩ := ha
  simp only [Bool.and_eq_true, decide_eq_true_eq, List.any_eq_true] at hpred
  obtain ⟨-, b, hb, hbc, hbr⟩ := hpred
  unfold aroundAtoms at hb
  rw [List.mem_filter] at hb
  obtain ⟨-, hbpred⟩ := hb
  simp only [Bool.and_eq_true, Bool.not_eq_true', Bool.and_eq_false_iff,
    decide_eq_false_iff_not, decide_eq_true_eq] at hbpred
  rintro ⟨hc, hr⟩
  subst hEq
  rcases hbpred.1 with hx | hx
  · exact hx (by simp_all)
  · exact hx (by simp_all)

/-- Successful vector1 assignment: the resolved index is in range. -/
theorem vsetBool_eq_some (v v' : List Bool) (i : Nat)
    (h : vsetBool v i = some v') :
    1 ≤ i ∧ i ≤ v.length ∧ v' = v.set (i - 1) true := by
  unfold vsetBool at h
  split at h
  · rename_i hc
    exact ⟨hc.1, hc.2, (Option.some.inj h).symm⟩
  · exact Option.noConfusion h

/-- A targets2vector fold aborts as soon as one target resolves to 0. -/
theorem t2v_none_aux (keys : List PdbKey) :
    ∀ (ts : List TargetRC) (v : List Bool), (∃ t ∈ ts, pdb2pose keys t = 0) →
      keys.length ≤ v.length →
      List.foldlM (fun v t => vsetBool v (pdb2pose keys t)) v ts = none := by
  intro ts
  induction ts with
  | nil => intro v h _; simp at h
  | cons a rest ih =>
    intro v h hlen
    rw [List.foldlM_cons]
    by_cases ha : pdb2pose keys a = 0
    · rw [ha]
      have : vsetBool v 0 = none := by simp [vsetBool]
      rw [this]
      rfl
    · have hle : pdb2pose keys a ≤ v.length := le_trans (pdb2pose_le keys a) hlen
      have hstep : vsetBool v (pdb2pose keys a)
          = some (v.set (pdb2pose keys a - 1) true) := by
        simp [vsetBool, Nat.one_le_iff_ne_zero.mpr ha, hle]
      rw [hstep]
      simp only [Option.bind_eq_bind, Option.some_bind]
      have hrest : ∃ t ∈ rest, pdb2pose keys t = 0 := by
        obtain ⟨t, ht, h0⟩ := h
        rcases List.mem_cons.mp ht with rfl | htr
        · exact absurd h0 ha
        · exact ⟨t, htr, h0⟩
      exact ih _ hrest (by simpa using hlen)

/-- A targets2vector fold leaves every index that no target resolves to
exactly as it was in the starting vector. -/
theorem t2v_get_unset (keys : List PdbKey) (r : Nat) (hr : 1 ≤ r) :
    ∀ (ts : List TargetRC) (v mask : List Bool),
      List.foldlM (fun v t => vsetBool v (pdb2pose keys t)) v ts = some mask →
      (∀ t ∈ ts, pdb2pose keys t ≠ r) →
      mask.get? (r - 1) = v.get? (r - 1) := by
  intro ts
  induction ts with
  | nil =>
    intro v mask h _
    simp only [List.foldlM_nil] at h
    rw [← Option.some.inj h]
  | cons a rest ih =>
    intro v mask h hne
    rw [List.foldlM_cons] at h
    cases hvs : vsetBool v (pdb2pose keys a) with
    | none => rw [hvs] at h; exact Option.noConfusion h
    | some v' =>
      rw [hvs] at h
      simp only [Option.bind_eq_bind, Option.some_bind] at h
      obtain ⟨h1, h2, h3⟩ := vsetBool_eq_some v v' (pdb2pose keys a) hvs
      have hrec := ih v' mask h (fun t ht => hne t (List.mem_cons_of_mem a ht))
      rw [hrec, h3]
      have hma : pdb2pose keys a ≠ r := hne a (List.mem_cons_self a rest)
      rw [List.get?_eq_getElem?, List.get?_eq_getElem?, List.getElem?_set_ne (by omega)]

/-- C4 amended: when the target resolves, the PyRosetta topological
strategy always flags the target's own internal index (the selector is
constructed with include_focus_in_subset = True), while the mask built
from the PyMOL spatial strategy leaves the target's own internal index
unflagged, because the around operator excludes the source selection. -/
theorem neighbour_mask_target_membership (near : Nat → Nat → Nat → Bool)
    (radius : Nat) (atoms : List Atom) (t : TargetRC) (rad : ℤ) (mask : List Bool)
    (h1 : 1 ≤ pdb2pose (poseKeys atoms) t)
    (hm : targets2vector (poseKeys atoms) (poseKeys atoms).length
        (calcNeighboursPymol atoms t rad) = some mask) :
    (pyrosettaNeighbours near (poseKeys atoms).length radius
        (pdb2pose (poseKeys atoms) t)).get? (pdb2pose (poseKeys atoms) t - 1)
      = some true
    ∧ mask.get? (pdb2pose (poseKeys atoms) t - 1) = some false := by
  have hle := pdb2pose_le (poseKeys atoms) t
  have hlt : pdb2pose (poseKeys atoms) t - 1 < (poseKeys atoms).length := by omega
  constructor
  · unfold pyrosettaNeighbours
    rw [List.get?_eq_getElem?, List.getElem?_map, List.getElem?_range hlt]
    simp only [Option.map_some']
    have : pdb2pose (poseKeys atoms) t - 1 + 1 = pdb2pose (poseKeys atoms) t := by omega
    rw [this]
    simp
  · have hne : ∀ nb ∈ calcNeighboursPymol atoms t rad,
        pdb2pose (poseKeys atoms) nb ≠ pdb2pose (poseKeys atoms) t := by
      intro nb hnb hEqq
      have hkey := calcNeighboursPymol_ne_target atoms t rad nb hnb
      have hinj := pdb2pose_inj (poseKeys atoms) nb t hEqq (by omega)
      exact hkey ⟨congrArg Prod.fst hinj, congrArg Prod.snd hinj⟩
    unfold targets2vector at hm
    rw [t2v_get_unset (poseKeys atoms) (pdb2pose (poseKeys atoms) t) h1
      (calcNeighboursPymol atoms t rad) _ mask hm hne]
    rw [List.get?_eq_getElem?]
    simp [List.getElem?_replicate, hlt]

/-- Witness for C4 amended on the two-residue structure: target chain A
residue 1 resolves to pose index 1; the PyRosetta mask flags index 1
and the PyMOL mask [false, true] does not. -/
theorem neighbour_mask_target_membership_witness :
    (pyrosettaNeighbours sampleEng.near (poseKeys atoms2).length 3
        (pdb2pose (poseKeys atoms2) { resi := 1, chain := "A" })).get?
        (pdb2pose (poseKeys atoms2) { resi := 1, chain := "A" } - 1) = some true
    ∧ ([false, true] : List Bool).get?
        (pdb2pose (poseKeys atoms2) { resi := 1, chain := "A" } - 1) = some false :=
  neighbour_mask_target_membership sampleEng.near 3 atoms2 { resi := 1, chain := "A" }
    3 [false, true] (by decide) (by decide)

/-- Counterexample for C4: on the two-residue structure the PyMOL
spatial strategy produces the neighbour mask [false, true] for target
chain A residue 1 (internal index 1): the mask does not contain the
target's own internal index. -/
theorem pymol_mask_excludes_target_counterexample :
    pdb2pose (poseKeys atoms2) { resi := 1, chain := "A" } = 1
    ∧ targets2vector (poseKeys atoms2) (poseKeys atoms2).length
        (calcNeighboursPymol atoms2 { resi := 1, chain := "A" } 3)
      = some [false, true] := by
  decide

/-- C6 amended: a neighbour whose (chain, residue number) fails index
resolution is not dropped — targets2vector feeds the unchecked 0 into
the 1-based vector1 assignment, an invalid access that aborts the
conversion with an error. -/
theorem targets2vector_unresolved_aborts (keys : List PdbKey)
    (targets : List TargetRC) (t : TargetRC) (ht : t ∈ targets)
    (h0 : pdb2pose keys t = 0) :
    targets2vector keys keys.length targets = none := by
  unfold targets2vector
  exact t2v_none_aux keys targets _ ⟨t, ht, h0⟩ (by simp)

/-- Witness for C6 amended: the lone unresolvable neighbour residue 99
aborts the conversion on the one-residue structure. -/
theorem targets2vector_unresolved_aborts_witness :
    targets2vector (poseKeys atoms1) (poseKeys atoms1).length
      [{ resi := 99, chain := "A" }] = none :=
  targets2vector_unresolved_aborts (poseKeys atoms1) _ { resi := 99, chain := "A" }
    (by decide) (by decide)

/-- Counterexample for C6: with one resolvable neighbour (residue 2)
and one unresolvable neighbour (residue 99), the conversion does not
complete with the bad residue dropped — it aborts with an error. -/
theorem targets2vector_silent_drop_counterexample :
    targets2vector (poseKeys atoms2) (poseKeys atoms2).length
      [{ resi := 2, chain := "A" }, { resi := 99, chain := "A" }] = none := by
  decide

end MP
